import Mathlib

/-!
# Verification of the Vestpod price-aggregation and alert pipeline

Shallow embedding of the core of the `vestpod-backend` repository:

* the alert-checker job (`supabase/functions/alert-checker-job/index.ts`),
* the provider clients (`_shared/massive-client.ts`,
  `_shared/coingecko-client.ts` — which also contains the Alpha Vantage
  client —, `_shared/coincap-client.ts`, `_shared/goldapi-client.ts`,
  the ExchangeRate client and the Metals-API client),
* the automated price-update job.

Prices and timestamps are modelled as rationals (`ℚ`), millisecond
timestamps for the rate limiter as naturals.  JavaScript truthiness on
nullable numbers (`!x` is `true` for both `null` and `0`) is modelled
explicitly on `Option ℚ`.
-/

namespace Vestpod

/-- JavaScript falsiness of a nullable number: `!x` holds for `null` and `0`. -/
def jsFalsy : Option ℚ → Bool
  | none => true
  | some x => x == 0

/-! ## Alert checker job (`alert-checker-job/index.ts`) -/

namespace AlertJob

/-- `alert_type` union in the `Alert` interface. -/
inductive AlertType
  | price_target
  | percentage_change
  | maturity_reminder
deriving DecidableEq, Repr

/-- `condition_operator` union in the `Alert` interface. -/
inductive CondOp
  | above
  | below
  | change_up
  | change_down
deriving DecidableEq, Repr

/-- The `Alert` row as read by the alert checker job. -/
structure Alert where
  id : ℕ
  user_id : ℕ
  asset_id : ℕ
  alert_type : AlertType
  condition_value : Option ℚ
  condition_operator : Option CondOp
  is_active : Bool
  triggered_at : Option ℚ
  last_checked_at : Option ℚ
  reminder_days_before : Option ℤ
deriving DecidableEq, Repr

/-- The joined `Asset` row used by the alert checker job.  The maturity
date from `metadata.maturity_date` is modelled as a day number. -/
structure Asset where
  id : ℕ
  symbol : Option String
  current_price : Option ℚ
  purchase_price : ℚ
  maturity_date : Option ℤ
deriving DecidableEq, Repr

/-- `checkPriceTargetAlert`: guard `!asset.current_price ||
!alert.condition_value` (JS falsy), then compare with `>=` / `<=`. -/
def checkPriceTargetAlert (alert : Alert) (asset : Asset) : Bool :=
  if jsFalsy asset.current_price || jsFalsy alert.condition_value then false
  else
    let currentPrice := asset.current_price.getD 0
    let targetPrice := alert.condition_value.getD 0
    match alert.condition_operator with
    | some .above => decide (currentPrice ≥ targetPrice)
    | some .below => decide (currentPrice ≤ targetPrice)
    | _ => false

/-- `checkPercentageChangeAlert`: same falsy guard, then
`percentageChange = ((currentPrice - purchasePrice) / purchasePrice) * 100`
compared against the threshold (`>=` for `change_up`, `<= -threshold` for
`change_down`).  Division is rational division; the job is only run on
assets with a nonzero purchase price (JS would produce an infinity there). -/
def checkPercentageChangeAlert (alert : Alert) (asset : Asset) : Bool :=
  if jsFalsy asset.current_price || jsFalsy alert.condition_value then false
  else
    let currentPrice := asset.current_price.getD 0
    let purchasePrice := asset.purchase_price
    let targetPercentage := alert.condition_value.getD 0
    let percentageChange := (currentPrice - purchasePrice) / purchasePrice * 100
    match alert.condition_operator with
    | some .change_up => decide (percentageChange ≥ targetPercentage)
    | some .change_down => decide (percentageChange ≤ -targetPercentage)
    | _ => false

/-- `checkMaturityReminderAlert`: triggered when
`reminderDate ≤ today < maturityDate`, where `reminderDate` is the maturity
date minus `reminder_days_before` days. -/
def checkMaturityReminderAlert (alert : Alert) (asset : Asset) (today : ℤ) : Bool :=
  match asset.maturity_date, alert.reminder_days_before with
  | some maturityDate, some reminderDays =>
      decide (maturityDate - reminderDays ≤ today) && decide (today < maturityDate)
  | _, _ => false

/-- Result record built by `checkAlert` / `processAlerts`. -/
structure AlertCheckResult where
  alert_id : ℕ
  user_id : ℕ
  triggered : Bool
  notification_sent : Bool
deriving DecidableEq, Repr

/-- Outcome of `checkAlert`: the updated alert row plus the result record. -/
structure CheckOutcome where
  alert : Alert
  result : AlertCheckResult
deriving Repr

/-- `checkAlert`: set `last_checked_at := now`, dispatch on `alert_type`;
on trigger, send the notification (the stub `sendPushNotification` returns
`true`), set `triggered_at := now` and `is_active := false`. -/
def checkAlert (alert : Alert) (asset : Asset) (now : ℚ) (today : ℤ) : CheckOutcome :=
  let checked := { alert with last_checked_at := some now }
  let triggered :=
    match alert.alert_type with
    | .price_target => checkPriceTargetAlert alert asset
    | .percentage_change => checkPercentageChangeAlert alert asset
    | .maturity_reminder => checkMaturityReminderAlert alert asset today
  if triggered then
    { alert := { checked with triggered_at := some now, is_active := false }
      result :=
        { alert_id := alert.id, user_id := alert.user_id
          triggered := true, notification_sent := true } }
  else
    { alert := checked
      result :=
        { alert_id := alert.id, user_id := alert.user_id
          triggered := false, notification_sent := false } }

/-- One stored alert together with its joined asset (`alert.assets` may be
missing). -/
abbrev AlertEntry := Alert × Option Asset

/-- How `processAlerts` transforms one stored entry.  Only entries matching
the `is_active = true` query filter are evaluated; an entry without a
joined asset yields an "Asset not found" result and no state change. -/
def stepEntry (now : ℚ) (today : ℤ) (e : AlertEntry) : AlertEntry :=
  if e.1.is_active then
    match e.2 with
    | none => e
    | some asset => ((checkAlert e.1 asset now today).alert, e.2)
  else e

/-- The result record `processAlerts` pushes for one selected entry. -/
def entryResult (now : ℚ) (today : ℤ) (e : AlertEntry) : AlertCheckResult :=
  match e.2 with
  | none =>
      { alert_id := e.1.id, user_id := e.1.user_id
        triggered := false, notification_sent := false }
  | some asset => (checkAlert e.1 asset now today).result

/-- `processAlerts` over the whole alert store: the query selects the rows
with `is_active = true`, every selected row is checked (updating the store)
and produces one result record; unselected rows are untouched. -/
def processAlerts (store : List AlertEntry) (now : ℚ) (today : ℤ) :
    List AlertEntry × List AlertCheckResult :=
  (store.map (stepEntry now today),
   (store.filter (fun e => e.1.is_active)).map (entryResult now today))

end AlertJob

/-! ## Retry engine shared by the provider clients

`fetchWithRetry` is duplicated near-identically in every provider client;
the duplicates differ only in their `isRetryableError` predicate and error
class name.  The engine is embedded once, parameterized by the retryable
predicate, and each client instantiates it with its own predicate. -/

/-- Outcome of one `fetch` attempt: a `response.ok` response, a non-ok
response with an HTTP status, or a thrown network error. -/
inductive AttemptOutcome
  | ok
  | httpFail (status : ℕ)
  | netFail
deriving DecidableEq, Repr

/-- Final outcome of `fetchWithRetry`: the response, or the thrown API
error carrying `statusCode?` and `retryable`. -/
inductive RetryOutcome
  | success
  | err (statusCode : Option ℕ) (retryable : Bool)
deriving DecidableEq, Repr

/-- Observable behaviour of one `fetchWithRetry` call: how many `fetch`
attempts were made, the delays slept before each retry (in order), and the
final outcome. -/
structure RetryTrace where
  attempts : ℕ
  delays : List ℕ
  result : RetryOutcome
deriving DecidableEq, Repr

/-- `MAX_RETRIES` in every provider client. -/
def MAX_RETRIES : ℕ := 3

/-- `INITIAL_RETRY_DELAY` (ms) in every provider client. -/
def INITIAL_RETRY_DELAY : ℕ := 1000

/-- The loop body of `fetchWithRetry` from attempt index `attempt` on,
given the outcome of each attempt.  A non-retryable HTTP failure is thrown
immediately with its status and `retryable = false`.  A retryable failure
with attempts remaining sleeps `INITIAL_RETRY_DELAY * 2 ^ attempt` and
retries.  Once attempts are exhausted the error finally thrown out of the
function is the one built after the loop, with `statusCode = undefined`
and `retryable = true` (the in-loop throw on the last HTTP failure is
retryable, so the `catch` swallows it and the loop falls through). -/
def fetchWithRetryGo (isRetry : Option ℕ → Bool) (outcomes : ℕ → AttemptOutcome)
    (retries : ℕ) (attempt : ℕ) : RetryTrace :=
  match outcomes attempt with
  | .ok => { attempts := 1, delays := [], result := .success }
  | .httpFail status =>
      if isRetry (some status) = false then
        { attempts := 1, delays := [], result := .err (some status) false }
      else if h : attempt < retries then
        let t := fetchWithRetryGo isRetry outcomes retries (attempt + 1)
        { attempts := t.attempts + 1
          delays := INITIAL_RETRY_DELAY * 2 ^ attempt :: t.delays
          result := t.result }
      else
        { attempts := 1, delays := [], result := .err none true }
  | .netFail =>
      if h : attempt < retries then
        let t := fetchWithRetryGo isRetry outcomes retries (attempt + 1)
        { attempts := t.attempts + 1
          delays := INITIAL_RETRY_DELAY * 2 ^ attempt :: t.delays
          result := t.result }
      else
        { attempts := 1, delays := [], result := .err none true }
termination_by retries - attempt
decreasing_by all_goals omega

/-- `fetchWithRetry` with the default `retries = MAX_RETRIES`. -/
def fetchWithRetry (isRetry : Option ℕ → Bool) (outcomes : ℕ → AttemptOutcome) : RetryTrace :=
  fetchWithRetryGo isRetry outcomes MAX_RETRIES 0

/-- An attempt outcome that enters the retry path of `fetchWithRetry`:
a network error, or a non-ok response whose status the client's predicate
calls retryable. -/
def isRetryableFailure (isRetry : Option ℕ → Bool) : AttemptOutcome → Bool
  | .ok => false
  | .httpFail status => isRetry (some status)
  | .netFail => true

/-! ## Per-client `isRetryableError` predicates

Each takes the JS `statusCode?: number` argument; `!statusCode` is true
both for `undefined` and for `0`. -/

/-- `massive-client.ts`: `!statusCode`, `429`, or `>= 500`. -/
def massiveIsRetryableError : Option ℕ → Bool
  | none => true
  | some statusCode =>
      statusCode == 0 || (statusCode == 429 || decide (statusCode ≥ 500))

/-- `coincap-client.ts`: `!statusCode`, `429`, or `>= 500`. -/
def coincapIsRetryableError : Option ℕ → Bool
  | none => true
  | some statusCode =>
      statusCode == 0 || (statusCode == 429 || decide (statusCode ≥ 500))

/-- `goldapi-client.ts`: `!statusCode`, `429`, or `>= 500`. -/
def goldapiIsRetryableError : Option ℕ → Bool
  | none => true
  | some statusCode =>
      statusCode == 0 || (statusCode == 429 || decide (statusCode ≥ 500))

/-- The CoinGecko section of `coingecko-client.ts`: `!statusCode`, `429`,
or `>= 500`. -/
def coingeckoIsRetryableError : Option ℕ → Bool
  | none => true
  | some statusCode =>
      statusCode == 0 || (statusCode == 429 || decide (statusCode ≥ 500))

/-- The Alpha Vantage section of `coingecko-client.ts`: `!statusCode` or
`>= 500` only — `429` is NOT retryable here. -/
def alphaVantageIsRetryableError : Option ℕ → Bool
  | none => true
  | some statusCode => statusCode == 0 || decide (statusCode ≥ 500)

/-- The ExchangeRate client: `!statusCode` or `>= 500` only. -/
def exchangeRateIsRetryableError : Option ℕ → Bool
  | none => true
  | some statusCode => statusCode == 0 || decide (statusCode ≥ 500)

/-- The Metals-API client: `!statusCode` or `>= 500` only. -/
def metalsApiIsRetryableError : Option ℕ → Bool
  | none => true
  | some statusCode => statusCode == 0 || decide (statusCode ≥ 500)

/-- The classification the spec describes: retryable exactly for a
network/timeout error (no status) or HTTP `429` or status `≥ 500`. -/
def specRetryable : Option ℕ → Prop
  | none => True
  | some statusCode => statusCode = 429 ∨ statusCode ≥ 500

instance : DecidablePred specRetryable := by
  intro s
  cases s <;> simp [specRetryable] <;> infer_instance

/-! ## JS `Map` model

A JavaScript `Map` keyed by strings, as an association list in insertion
order: `set` overwrites an existing key in place, otherwise appends. -/

/-- `Map.set`. -/
def mapSet {β : Type} : List (String × β) → String → β → List (String × β)
  | [], k, v => [(k, v)]
  | p :: rest, k, v =>
      if p.1 = k then (k, v) :: rest else p :: mapSet rest k v

/-- `Map.get` (as an option). -/
def mapGet {β : Type} (m : List (String × β)) (k : String) : Option β :=
  (m.find? (fun p => p.1 = k)).map (fun p => p.2)

/-- The key list of a map. -/
def mapKeys {β : Type} (m : List (String × β)) : List String :=
  m.map (fun p => p.1)

/-! ## Batch quote fetchers

Each batch fetcher is embedded relative to the outcome of the underlying
per-symbol `fetchStockQuote` call, given as `fetch : String → Except ε α`
(`.ok` a quote, `.error` a thrown error). -/

/-- `massive-client.ts` `fetchBatchQuotes`: every symbol is fetched, and
its quote or error is recorded in the result map independently of the
other symbols. -/
def massiveFetchBatchQuotes {ε α : Type} (fetch : String → Except ε α)
    (symbols : List String) : List (String × Except ε α) :=
  symbols.foldl (fun results symbol => mapSet results symbol (fetch symbol)) []

/-- The error class thrown by the Alpha Vantage client, reduced to what
the batch loop inspects: whether it is a `RateLimitError`. -/
structure AVError where
  rateLimit : Bool
deriving DecidableEq, Repr

/-- The sequential loop of the Alpha Vantage `fetchBatchQuotes`: record
each symbol's quote or error; on a `RateLimitError` stop processing —
the remaining symbols get no entry at all. -/
def avBatchGo {α : Type} (fetch : String → Except AVError α) :
    List String → List (String × Except AVError α) → List (String × Except AVError α)
  | [], results => results
  | symbol :: rest, results =>
      match fetch symbol with
      | .ok quote => avBatchGo fetch rest (mapSet results symbol (.ok quote))
      | .error e =>
          let results := mapSet results symbol (.error e)
          if e.rateLimit then results else avBatchGo fetch rest results

/-- The Alpha Vantage `fetchBatchQuotes` in `coingecko-client.ts`. -/
def avFetchBatchQuotes {α : Type} (fetch : String → Except AVError α)
    (symbols : List String) : List (String × Except AVError α) :=
  avBatchGo fetch symbols []

/-! ## Alpha Vantage rate limiter (`coingecko-client.ts`) -/

/-- `DAILY_LIMIT` for the Alpha Vantage client. -/
def DAILY_LIMIT : ℕ := 25

/-- `MINUTE_LIMIT` for the Alpha Vantage client. -/
def MINUTE_LIMIT : ℕ := 5

/-- The module-level `rateLimitState` (timestamps in ms). -/
structure RateLimitState where
  dailyCalls : ℕ
  dailyResetTime : ℕ
  minuteCalls : ℕ
  minuteResetTime : ℕ
deriving DecidableEq, Repr

/-- `checkRateLimit`: reset any expired window, check both limits, and on
headroom increment both counters and allow the call. -/
def checkRateLimit (now : ℕ) (st : RateLimitState) : Bool × RateLimitState :=
  let st :=
    if now ≥ st.dailyResetTime then
      { st with dailyCalls := 0, dailyResetTime := now + 24 * 60 * 60 * 1000 }
    else st
  let st :=
    if now ≥ st.minuteResetTime then
      { st with minuteCalls := 0, minuteResetTime := now + 60 * 1000 }
    else st
  if st.dailyCalls ≥ DAILY_LIMIT then (false, st)
  else if st.minuteCalls ≥ MINUTE_LIMIT then (false, st)
  else (true,
    { st with dailyCalls := st.dailyCalls + 1, minuteCalls := st.minuteCalls + 1 })

/-- Events observable at the rate-limiter / HTTP boundary. -/
inductive TraceEvent
  | acquireSuccess
  | acquireFail
  | request
deriving DecidableEq, Repr

/-- The acquire/request trace of one Alpha Vantage `fetchStockQuote` call:
one `checkRateLimit` call up front (throwing `RateLimitError` without any
request when it fails), then `fetchWithRetry` performs all its attempts —
the retries make further HTTP requests without any further
`checkRateLimit` call. -/
def avFetchStockQuoteTrace (now : ℕ) (st : RateLimitState)
    (outcomes : ℕ → AttemptOutcome) : List TraceEvent :=
  let acquired := (checkRateLimit now st).1
  if acquired then
    .acquireSuccess ::
      List.replicate (fetchWithRetry alphaVantageIsRetryableError outcomes).attempts .request
  else [.acquireFail]

/-! ## Automated price-update job -/

namespace PriceJob

/-- The `Asset` row as read by the price-update job (timestamps in ms). -/
structure Asset where
  id : ℕ
  user_id : ℕ
  asset_type : String
  symbol : Option String
  current_price : Option ℚ
  last_price_update : Option ℚ
deriving DecidableEq, Repr

/-- The `subscriptions` row used by the update-eligibility gate. -/
structure Subscription where
  user_id : ℕ
  is_premium : Bool
  price_update_frequency_minutes : ℚ
deriving DecidableEq, Repr

/-- `getUsersNeedingUpdates`: for each subscription, read ONE of the
user's listed assets (the source query is `.not("symbol","is",null)
.limit(1)` with NO ordering — modelled as the first matching row in store
order), skip users with no listed asset, and select the user when
`minutesSinceUpdate >= price_update_frequency_minutes`, where a null
`last_price_update` counts as the epoch. -/
def getUsersNeedingUpdates (subs : List Subscription) (assets : List Asset)
    (now : ℚ) : List ℕ :=
  subs.filterMap fun sub =>
    match (assets.filter
        (fun a => decide (a.user_id = sub.user_id) && decide (a.symbol ≠ none))).head? with
    | none => none
    | some a =>
        let lastUpdate := a.last_price_update.getD 0
        let minutesSinceUpdate := (now - lastUpdate) / (1000 * 60)
        if minutesSinceUpdate ≥ sub.price_update_frequency_minutes then
          some sub.user_id
        else none

/-- Modelled from the spec: the same gate but computing
`minutesSinceLastUpdate` from the MOST RECENTLY UPDATED listed asset of
the user, as §4.5 of the spec words it ("compute `minutesSinceLastUpdate`
from the most recently updated listed asset"). -/
def getUsersNeedingUpdatesSpec (subs : List Subscription) (assets : List Asset)
    (now : ℚ) : List ℕ :=
  subs.filterMap fun sub =>
    let listed := assets.filter
      (fun a => decide (a.user_id = sub.user_id) && decide (a.symbol ≠ none))
    match (listed.map (fun a => a.last_price_update.getD 0)).max? with
    | none => none
    | some lastUpdate =>
        let minutesSinceUpdate := (now - lastUpdate) / (1000 * 60)
        if minutesSinceUpdate ≥ sub.price_update_frequency_minutes then
          some sub.user_id
        else none

/-- Value stored for a symbol in a stock batch result map. -/
inductive QuoteOrError
  | quote (price : ℚ)
  | failed
deriving DecidableEq, Repr

/-- A batch result map as consumed by the price-update job. -/
abbrev StockMap := List (String × QuoteOrError)

/-- The per-asset result record built by the fetch helpers. -/
structure PriceUpdateResult where
  asset_id : ℕ
  symbol : String
  old_price : Option ℚ
  new_price : ℚ
  source : String
  success : Bool
deriving DecidableEq, Repr

/-- The result record built for one asset from its entry in the batch
map; an asset whose symbol has NO entry in the map yields no record. -/
def stockResultRecord (source : String) (m : StockMap) (a : Asset) :
    Option PriceUpdateResult :=
  match a.symbol.bind (fun s => mapGet m s) with
  | some .failed =>
      some { asset_id := a.id, symbol := a.symbol.getD "", old_price := a.current_price
             new_price := 0, source := source, success := false }
  | some (.quote price) =>
      some { asset_id := a.id, symbol := a.symbol.getD "", old_price := a.current_price
             new_price := price, source := source, success := true }
  | none => none

/-- `updateStockPrices`: extract the non-empty symbols; if none, return no
records.  Try the Massive batch; on a thrown error fall back to the Alpha
Vantage batch; if both throw, mark every asset failed with source
`"none"`.  Otherwise build one record per asset from its map entry. -/
def updateStockPrices (assets : List Asset)
    (massiveOutcome : Except Unit StockMap) (avOutcome : Except Unit StockMap) :
    List PriceUpdateResult :=
  let symbols := (assets.filterMap (fun a => a.symbol)).filter (fun s => s ≠ "")
  if symbols = [] then []
  else
    match massiveOutcome, avOutcome with
    | .ok m, _ => assets.filterMap (stockResultRecord "massive" m)
    | .error _, .ok m => assets.filterMap (stockResultRecord "alphavantage" m)
    | .error _, .error _ =>
        assets.map fun a =>
          { asset_id := a.id, symbol := a.symbol.getD "", old_price := a.current_price
            new_price := 0, source := "none", success := false }

/-- A price-history row inserted by `savePriceUpdates`. -/
structure HistoryRecord where
  asset_id : ℕ
  symbol : String
  price : ℚ
  timestamp : ℚ
  source : String
deriving DecidableEq, Repr

/-- One `assets` table update issued by `savePriceUpdates` for a
successful result: set `current_price` and `last_price_update` on the row
with the matching id, leaving every other row as it was. -/
def applyUpdate (now : ℚ) (store : List Asset) (r : PriceUpdateResult) : List Asset :=
  store.map fun a =>
    if a.id = r.asset_id then
      { a with current_price := some r.new_price, last_price_update := some now }
    else a

/-- `savePriceUpdates`: filter the successful results; issue one update
per successful result; insert one price-history row per successful
result.  Failed results cause no write of any kind. -/
def savePriceUpdates (store : List Asset) (results : List PriceUpdateResult)
    (now : ℚ) : List Asset × List HistoryRecord :=
  let successfulUpdates := results.filter (fun r => r.success)
  (successfulUpdates.foldl (applyUpdate now) store,
   successfulUpdates.map fun r =>
     { asset_id := r.asset_id, symbol := r.symbol, price := r.new_price
       timestamp := now, source := r.source })

/-- `assets_updated` in the per-user run summary. -/
def assetsUpdated (results : List PriceUpdateResult) : ℕ :=
  (results.filter (fun r => r.success)).length

/-- `assets_failed` in the per-user run summary. -/
def assetsFailed (results : List PriceUpdateResult) : ℕ :=
  (results.filter (fun r => r.success = false)).length

end PriceJob

/-! ## Theorems -/

namespace AlertJob

/-- C6 (amended): provided the asset's current price and the alert's
threshold are present and nonzero, a price-target alert triggers iff
(`above` and `currentPrice >= threshold`) or (`below` and
`currentPrice <= threshold`) — boundary-inclusive. -/
theorem checkPriceTargetAlert_iff (alert : Alert) (asset : Asset) (c v : ℚ)
    (hc : asset.current_price = some c) (hv : alert.condition_value = some v)
    (hc0 : c ≠ 0) (hv0 : v ≠ 0) :
    checkPriceTargetAlert alert asset = true ↔
      ((alert.condition_operator = some .above ∧ v ≤ c) ∨
       (alert.condition_operator = some .below ∧ c ≤ v)) := by
  unfold checkPriceTargetAlert
  rw [hc, hv]
  simp only [jsFalsy, beq_eq_false_iff_ne, ne_eq]
  rw [if_neg (by simp [hc0, hv0])]
  rcases hop : alert.condition_operator with _ | op
  · simp
  · cases op <;> simp [Option.getD, ge_iff_le]

/-- Witness for C6: the spec's example — `operator=above`,
`threshold=100`, `currentPrice=100` triggers (boundary inclusive). -/
theorem checkPriceTargetAlert_iff_witness :
    checkPriceTargetAlert
      { id := 1, user_id := 1, asset_id := 1, alert_type := .price_target
        condition_value := some 100, condition_operator := some .above
        is_active := true, triggered_at := none, last_checked_at := none
        reminder_days_before := none }
      { id := 1, symbol := some "AAPL", current_price := some 100
        purchase_price := 50, maturity_date := none } = true := by
  rw [checkPriceTargetAlert_iff _ _ 100 100 rfl rfl (by norm_num) (by norm_num)]
  exact Or.inl ⟨rfl, le_refl _⟩

/-- Counterexample for C6 as stated: with `operator=below`,
`threshold=100` and `currentPrice=0`, the condition of the claim holds
(`0 <= 100`), yet the code returns not-triggered, because the JS guard
`!asset.current_price` treats a zero price like a missing one. -/
theorem checkPriceTargetAlert_counterexample :
    checkPriceTargetAlert
        { id := 2, user_id := 1, asset_id := 2, alert_type := .price_target
          condition_value := some 100, condition_operator := some .below
          is_active := true, triggered_at := none, last_checked_at := none
          reminder_days_before := none }
        { id := 2, symbol := some "XYZ", current_price := some 0
          purchase_price := 10, maturity_date := none } = false ∧
      (0 : ℚ) ≤ 100 := by
  constructor
  · rfl
  · norm_num

/-- C7 (amended): provided the asset's current price and the alert's
threshold are present and nonzero (and the purchase price is nonzero, so
the quotient is meaningful), a percentage-change alert evaluates
`pctChange = (currentPrice - purchasePrice) / purchasePrice * 100` against
the asset's static purchase price, and triggers iff (`change_up` and
`pctChange >= threshold`) or (`change_down` and
`pctChange <= -threshold`). -/
theorem checkPercentageChangeAlert_iff (alert : Alert) (asset : Asset) (c v : ℚ)
    (hc : asset.current_price = some c) (hv : alert.condition_value = some v)
    (hc0 : c ≠ 0) (hv0 : v ≠ 0) (hp : asset.purchase_price ≠ 0) :
    checkPercentageChangeAlert alert asset = true ↔
      ((alert.condition_operator = some .change_up ∧
          v ≤ (c - asset.purchase_price) / asset.purchase_price * 100) ∨
       (alert.condition_operator = some .change_down ∧
          (c - asset.purchase_price) / asset.purchase_price * 100 ≤ -v)) := by
  unfold checkPercentageChangeAlert
  rw [hc, hv]
  simp only [jsFalsy, beq_eq_false_iff_ne, ne_eq]
  rw [if_neg (by simp [hc0, hv0])]
  rcases hop : alert.condition_operator with _ | op
  · simp
  · cases op <;> simp [Option.getD, ge_iff_le]

/-- Witness for C7: the spec's example — `purchasePrice=100`,
`currentPrice=112`, `operator=change_up`, `threshold=10` triggers
(the change is 12%). -/
theorem checkPercentageChangeAlert_iff_witness :
    checkPercentageChangeAlert
      { id := 3, user_id := 1, asset_id := 3, alert_type := .percentage_change
        condition_value := some 10, condition_operator := some .change_up
        is_active := true, triggered_at := none, last_checked_at := none
        reminder_days_before := none }
      { id := 3, symbol := some "AAPL", current_price := some 112
        purchase_price := 100, maturity_date := none } = true := by
  rw [checkPercentageChangeAlert_iff _ _ 112 10 rfl rfl (by norm_num) (by norm_num)
    (by norm_num)]
  exact Or.inl ⟨rfl, by norm_num⟩

/-- Counterexample for C7 as stated: with `purchasePrice=100`,
`currentPrice=0`, `operator=change_down` and `threshold=50`, the claim's
formula gives `pctChange = -100 <= -50`, so the claim says triggered, yet
the code returns not-triggered because the JS guard `!asset.current_price`
treats the zero price like a missing one. -/
theorem checkPercentageChangeAlert_counterexample :
    checkPercentageChangeAlert
        { id := 4, user_id := 1, asset_id := 4, alert_type := .percentage_change
          condition_value := some 50, condition_operator := some .change_down
          is_active := true, triggered_at := none, last_checked_at := none
          reminder_days_before := none }
        { id := 4, symbol := some "XYZ", current_price := some 0
          purchase_price := 100, maturity_date := none } = false ∧
      ((0 : ℚ) - 100) / 100 * 100 ≤ -50 := by
  constructor
  · rfl
  · norm_num

/-- The result record built for an entry always carries that entry's
alert id. -/
theorem entryResult_alert_id (now : ℚ) (today : ℤ) (e : AlertEntry) :
    (entryResult now today e).alert_id = e.1.id := by
  rcases e with ⟨alert, _ | asset⟩
  · rfl
  · simp only [entryResult, checkAlert]
    split <;> rfl

/-- An entry that is not `is_active` is left unchanged by a pass. -/
theorem stepEntry_not_active (now : ℚ) (today : ℤ) (e : AlertEntry)
    (h : e.1.is_active = false) : stepEntry now today e = e := by
  simp [stepEntry, h]

/-- C1: the alert state machine is one-shot and terminal.  If the stored
alert at position `i` is in the `Triggered` state (`triggered_at` set and
`is_active = false`) then an alert-evaluation pass leaves it exactly as it
was, emits no result record — hence no notification — for its id, and
every result record the pass emits belongs to an alert that was still
`Active` when the pass selected it. -/
theorem processAlerts_triggered_terminal (store : List AlertEntry) (now : ℚ)
    (today : ℤ) (hnd : (store.map (fun e => e.1.id)).Nodup)
    (i : ℕ) (e : AlertEntry) (hi : store[i]? = some e)
    (hina : e.1.is_active = false) (htr : e.1.triggered_at ≠ none) :
    (processAlerts store now today).1[i]? = some e ∧
      (∀ r ∈ (processAlerts store now today).2, r.alert_id ≠ e.1.id) ∧
      (∀ r ∈ (processAlerts store now today).2,
        ∃ e' ∈ store, e'.1.is_active = true ∧ r.alert_id = e'.1.id) := by
  have hmem : e ∈ store := by
    have := List.getElem?_eq_some_iff.mp hi
    rcases this with ⟨hlen, hget⟩
    exact hget ▸ List.getElem_mem hlen
  have hres : ∀ r ∈ (processAlerts store now today).2,
      ∃ e' ∈ store, e'.1.is_active = true ∧ r.alert_id = e'.1.id := by
    intro r hr
    simp only [processAlerts, List.mem_map, List.mem_filter] at hr
    rcases hr with ⟨e', ⟨he'mem, he'act⟩, rfl⟩
    exact ⟨e', he'mem, by simpa using he'act, entryResult_alert_id now today e'⟩
  refine ⟨?_, ?_, hres⟩
  · simp only [processAlerts, List.getElem?_map, hi]
    simp [stepEntry_not_active now today e hina]
  · intro r hr hid
    rcases hres r hr with ⟨e', he'mem, he'act, hid'⟩
    have : e' = e :=
      List.inj_on_of_nodup_map hnd he'mem hmem (by rw [← hid', hid])
    rw [this] at he'act
    rw [he'act] at hina
    exact Bool.noConfusion hina

/-- Witness for C1: a store holding one triggered alert and one active
alert; the pass leaves the triggered entry untouched and only the active
alert's id appears among the results. -/
theorem processAlerts_triggered_terminal_witness :
    ((processAlerts
        [({ id := 7, user_id := 1, asset_id := 1, alert_type := .price_target
            condition_value := some 100, condition_operator := some .above
            is_active := false, triggered_at := some 5, last_checked_at := some 5
            reminder_days_before := none },
          some { id := 1, symbol := some "AAPL", current_price := some 120
                 purchase_price := 50, maturity_date := none }),
         ({ id := 8, user_id := 1, asset_id := 1, alert_type := .price_target
            condition_value := some 100, condition_operator := some .above
            is_active := true, triggered_at := none, last_checked_at := none
            reminder_days_before := none },
          some { id := 1, symbol := some "AAPL", current_price := some 120
                 purchase_price := 50, maturity_date := none })] 10 0).1[0]? =
      some ({ id := 7, user_id := 1, asset_id := 1, alert_type := .price_target
              condition_value := some 100, condition_operator := some .above
              is_active := false, triggered_at := some 5, last_checked_at := some 5
              reminder_days_before := none },
            some { id := 1, symbol := some "AAPL", current_price := some 120
                   purchase_price := 50, maturity_date := none })) ∧
    (∀ r ∈ (processAlerts
        [({ id := 7, user_id := 1, asset_id := 1, alert_type := .price_target
            condition_value := some 100, condition_operator := some .above
            is_active := false, triggered_at := some 5, last_checked_at := some 5
            reminder_days_before := none },
          some { id := 1, symbol := some "AAPL", current_price := some 120
                 purchase_price := 50, maturity_date := none }),
         ({ id := 8, user_id := 1, asset_id := 1, alert_type := .price_target
            condition_value := some 100, condition_operator := some .above
            is_active := true, triggered_at := none, last_checked_at := none
            reminder_days_before := none },
          some { id := 1, symbol := some "AAPL", current_price := some 120
                 purchase_price := 50, maturity_date := none })] 10 0).2,
      r.alert_id ≠ 7) := by
  have h := processAlerts_triggered_terminal
    [({ id := 7, user_id := 1, asset_id := 1, alert_type := .price_target
        condition_value := some 100, condition_operator := some .above
        is_active := false, triggered_at := some 5, last_checked_at := some 5
        reminder_days_before := none },
      some { id := 1, symbol := some "AAPL", current_price := some 120
             purchase_price := 50, maturity_date := none }),
     ({ id := 8, user_id := 1, asset_id := 1, alert_type := .price_target
        condition_value := some 100, condition_operator := some .above
        is_active := true, triggered_at := none, last_checked_at := none
        reminder_days_before := none },
      some { id := 1, symbol := some "AAPL", current_price := some 120
             purchase_price := 50, maturity_date := none })] 10 0
    (by decide) 0 _ rfl rfl (by decide)
  exact ⟨h.1, h.2.1⟩

end AlertJob

/-- Behaviour of the retry loop when the first `N` attempts (from index
`attempt`) are retryable failures and attempt `attempt + N` succeeds:
`N + 1` attempts in total, sleeping exactly
`INITIAL_RETRY_DELAY * 2 ^ a` before the retry that follows failing
attempt `a`. -/
theorem fetchWithRetryGo_success (isRetry : Option ℕ → Bool) (f : ℕ → AttemptOutcome)
    (retries : ℕ) : ∀ N attempt : ℕ, attempt + N ≤ retries →
    (∀ i, i < N → isRetryableFailure isRetry (f (attempt + i)) = true) →
    f (attempt + N) = .ok →
    fetchWithRetryGo isRetry f retries attempt =
      { attempts := N + 1
        delays := (List.range N).map (fun i => INITIAL_RETRY_DELAY * 2 ^ (attempt + i))
        result := .success } := by
  intro N
  induction N with
  | zero =>
      intro attempt _ _ hok
      rw [Nat.add_zero] at hok
      rw [fetchWithRetryGo, hok]
      simp
  | succ n ih =>
      intro attempt hle hfail hok
      have h0 : isRetryableFailure isRetry (f attempt) = true := by
        simpa using hfail 0 (Nat.succ_pos n)
      have hlt : attempt < retries := by omega
      have hrec := ih (attempt + 1) (by omega)
        (fun i hi => by
          have := hfail (i + 1) (by omega)
          simpa [Nat.add_assoc, Nat.add_comm, Nat.add_left_comm] using this)
        (by
          have : attempt + 1 + n = attempt + (n + 1) := by omega
          rw [this]; exact hok)
      have hlist : (List.range (n + 1)).map
            (fun i => INITIAL_RETRY_DELAY * 2 ^ (attempt + i)) =
          INITIAL_RETRY_DELAY * 2 ^ attempt ::
            (List.range n).map (fun i => INITIAL_RETRY_DELAY * 2 ^ (attempt + 1 + i)) := by
        rw [List.range_succ_eq_map, List.map_cons, List.map_map]
        refine congrArg₂ _ (by rw [Nat.add_zero]) ?_
        refine List.map_congr_left fun i _ => ?_
        have : attempt + Nat.succ i = attempt + 1 + i := by omega
        simp [Function.comp, this]
      cases hf : f attempt with
      | ok => rw [hf] at h0; simp [isRetryableFailure] at h0
      | httpFail s =>
          rw [hf] at h0
          simp only [isRetryableFailure] at h0
          rw [fetchWithRetryGo, hf]
          simp only [h0, Bool.true_eq_false, if_false, hlt, dif_pos, hrec, hlist]
      | netFail =>
          rw [fetchWithRetryGo, hf]
          simp only [hlt, dif_pos, hrec, hlist]

/-- Behaviour of the retry loop when every attempt up to the retry budget
fails with a retryable failure: `retries - attempt + 1` attempts are made
and the error finally thrown has no status code and `retryable = true`. -/
theorem fetchWithRetryGo_exhausted (isRetry : Option ℕ → Bool) (f : ℕ → AttemptOutcome)
    (retries : ℕ) : ∀ k attempt : ℕ, attempt + k = retries →
    (∀ i, i ≤ k → isRetryableFailure isRetry (f (attempt + i)) = true) →
    fetchWithRetryGo isRetry f retries attempt =
      { attempts := k + 1
        delays := (List.range k).map (fun i => INITIAL_RETRY_DELAY * 2 ^ (attempt + i))
        result := .err none true } := by
  intro k
  induction k with
  | zero =>
      intro attempt heq hfail
      have h0 : isRetryableFailure isRetry (f attempt) = true := by
        simpa using hfail 0 (Nat.le_refl 0)
      have hnlt : ¬ attempt < retries := by omega
      cases hf : f attempt with
      | ok => rw [hf] at h0; simp [isRetryableFailure] at h0
      | httpFail s =>
          rw [hf] at h0
          simp only [isRetryableFailure] at h0
          rw [fetchWithRetryGo, hf]
          simp only [h0, Bool.true_eq_false, if_false, hnlt, dif_neg]
          simp
      | netFail =>
          rw [fetchWithRetryGo, hf]
          simp only [hnlt, dif_neg]
          simp
  | succ n ih =>
      intro attempt heq hfail
      have h0 : isRetryableFailure isRetry (f attempt) = true := by
        simpa using hfail 0 (Nat.zero_le _)
      have hlt : attempt < retries := by omega
      have hrec := ih (attempt + 1) (by omega)
        (fun i hi => by
          have := hfail (i + 1) (by omega)
          simpa [Nat.add_assoc, Nat.add_comm, Nat.add_left_comm] using this)
      have hlist : (List.range (n + 1)).map
            (fun i => INITIAL_RETRY_DELAY * 2 ^ (attempt + i)) =
          INITIAL_RETRY_DELAY * 2 ^ attempt ::
            (List.range n).map (fun i => INITIAL_RETRY_DELAY * 2 ^ (attempt + 1 + i)) := by
        rw [List.range_succ_eq_map, List.map_cons, List.map_map]
        refine congrArg₂ _ (by rw [Nat.add_zero]) ?_
        refine List.map_congr_left fun i _ => ?_
        have : attempt + Nat.succ i = attempt + 1 + i := by omega
        simp [Function.comp, this]
      cases hf : f attempt with
      | ok => rw [hf] at h0; simp [isRetryableFailure] at h0
      | httpFail s =>
          rw [hf] at h0
          simp only [isRetryableFailure] at h0
          rw [fetchWithRetryGo, hf]
          simp only [h0, Bool.true_eq_false, if_false, hlt, dif_pos, hrec, hlist]
      | netFail =>
          rw [fetchWithRetryGo, hf]
          simp only [hlt, dif_pos, hrec, hlist]

/-- C3: for a run of `N ≤ MAX_RETRIES` consecutive retryable failures
followed by a success, the Massive retry executor makes exactly `N + 1`
attempts, sleeping exactly `INITIAL_RETRY_DELAY * 2 ^ (i - 1)` (hence at
least that much) before retry attempt `i`; and when all
`MAX_RETRIES + 1` attempts fail with retryable failures it throws an
exhausted error that still carries `retryable = true`. -/
theorem massive_fetchWithRetry_spec (f : ℕ → AttemptOutcome) (N : ℕ)
    (hN : N ≤ MAX_RETRIES) :
    ((∀ i, i < N → isRetryableFailure massiveIsRetryableError (f i) = true) →
      f N = .ok →
      fetchWithRetry massiveIsRetryableError f =
        { attempts := N + 1
          delays := (List.range N).map (fun i => INITIAL_RETRY_DELAY * 2 ^ i)
          result := .success }) ∧
    ((∀ i, i ≤ MAX_RETRIES → isRetryableFailure massiveIsRetryableError (f i) = true) →
      fetchWithRetry massiveIsRetryableError f =
        { attempts := MAX_RETRIES + 1
          delays := (List.range MAX_RETRIES).map (fun i => INITIAL_RETRY_DELAY * 2 ^ i)
          result := .err none true }) := by
  constructor
  · intro hfail hok
    have h := fetchWithRetryGo_success massiveIsRetryableError f MAX_RETRIES N 0
      (by omega) (fun i hi => by simpa using hfail i hi) (by simpa using hok)
    simpa [fetchWithRetry] using h
  · intro hfail
    have h := fetchWithRetryGo_exhausted massiveIsRetryableError f MAX_RETRIES
      MAX_RETRIES 0 (by omega) (fun i hi => by simpa using hfail i hi)
    simpa [fetchWithRetry] using h

/-- Witness for C3: two netword-failures-then-success makes three
attempts with delays 1000 ms and 2000 ms; four retryable 503 failures
exhaust the budget with a `retryable = true` error. -/
theorem massive_fetchWithRetry_spec_witness :
    fetchWithRetry massiveIsRetryableError
        (fun i => if i < 2 then .netFail else .ok) =
      { attempts := 3, delays := [1000, 2000], result := .success } ∧
    fetchWithRetry massiveIsRetryableError (fun _ => .httpFail 503) =
      { attempts := 4, delays := [1000, 2000, 4000], result := .err none true } := by
  constructor
  · have h := (massive_fetchWithRetry_spec
        (fun i => if i < 2 then .netFail else .ok) 2 (by decide)).1
      (by decide) (by decide)
    rw [h]; decide
  · have h := (massive_fetchWithRetry_spec (fun _ => .httpFail 503) 3
        (by decide)).2 (by decide)
    rw [h]; decide

/-- C4 (amended): for genuine HTTP statuses (`100 ≤ c`), the Massive,
CoinCap, GoldAPI and CoinGecko clients classify a failure as retryable
exactly when it is a network error (no status), HTTP 429 or a status
`≥ 500`; but the Alpha Vantage, ExchangeRate and Metals-API clients treat
HTTP 429 as terminal — they retry only network errors and statuses
`≥ 500` — so the classification is NOT the same in every provider
client. -/
theorem isRetryableError_classification (s : Option ℕ)
    (hs : ∀ c, s = some c → 100 ≤ c) :
    (massiveIsRetryableError s = coincapIsRetryableError s ∧
     massiveIsRetryableError s = goldapiIsRetryableError s ∧
     massiveIsRetryableError s = coingeckoIsRetryableError s ∧
     alphaVantageIsRetryableError s = exchangeRateIsRetryableError s ∧
     alphaVantageIsRetryableError s = metalsApiIsRetryableError s) ∧
    (massiveIsRetryableError s = true ↔ specRetryable s) ∧
    (alphaVantageIsRetryableError s = true ↔
      (s = none ∨ ∃ c, s = some c ∧ 500 ≤ c)) := by
  rcases s with _ | c
  · simp [massiveIsRetryableError, coincapIsRetryableError, goldapiIsRetryableError,
      coingeckoIsRetryableError, alphaVantageIsRetryableError,
      exchangeRateIsRetryableError, metalsApiIsRetryableError, specRetryable]
  · have hc : 100 ≤ c := hs c rfl
    simp only [massiveIsRetryableError, coincapIsRetryableError, goldapiIsRetryableError,
      coingeckoIsRetryableError, alphaVantageIsRetryableError,
      exchangeRateIsRetryableError, metalsApiIsRetryableError, specRetryable,
      Bool.or_eq_true, beq_iff_eq, decide_eq_true_eq, Option.some.injEq,
      reduceCtorEq, false_or]
    refine ⟨⟨trivial, trivial, trivial, trivial, trivial⟩, ?_, ?_⟩
    · constructor
      · rintro (h0 | h429 | h500) <;> omega
      · rintro (h429 | h500) <;> omega
    · constructor
      · rintro (h0 | h500)
        · omega
        · exact ⟨c, rfl, h500⟩
      · rintro ⟨c', hc', h500⟩
        right
        omega

/-- Witness for C4 (amended): a 503 failure is retryable in the Massive
client (derived through the classification theorem at status 503). -/
theorem isRetryableError_classification_witness :
    massiveIsRetryableError (some 503) = true :=
  ((isRetryableError_classification (some 503)
      (by intro c h; cases h; omega)).2.1).mpr (by right; omega)

/-- Counterexample for C4 as stated: HTTP 429.  The claim says a 429 is
retryable in every provider client, and the Massive client indeed
classifies it retryable, but the Alpha Vantage client classifies the very
same status as terminal — the classification differs between provider
clients. -/
theorem isRetryableError_429_counterexample :
    massiveIsRetryableError (some 429) = true ∧
      alphaVantageIsRetryableError (some 429) = false ∧
      specRetryable (some 429) := by
  refine ⟨rfl, rfl, Or.inl rfl⟩

/-- Unfolding: a successful attempt ends the loop at once. -/
theorem fetchWithRetryGo_eq_ok (isRetry : Option ℕ → Bool) (f : ℕ → AttemptOutcome)
    (retries attempt : ℕ) (hf : f attempt = .ok) :
    fetchWithRetryGo isRetry f retries attempt =
      { attempts := 1, delays := [], result := .success } := by
  rw [fetchWithRetryGo, hf]

/-- Unfolding: a non-retryable HTTP failure is thrown immediately. -/
theorem fetchWithRetryGo_eq_terminal (isRetry : Option ℕ → Bool)
    (f : ℕ → AttemptOutcome) (retries attempt s : ℕ) (hf : f attempt = .httpFail s)
    (hr : isRetry (some s) = false) :
    fetchWithRetryGo isRetry f retries attempt =
      { attempts := 1, delays := [], result := .err (some s) false } := by
  rw [fetchWithRetryGo, hf]
  simp [hr]

/-- Unfolding: a retryable failure with attempts remaining sleeps and
recurses. -/
theorem fetchWithRetryGo_eq_retry (isRetry : Option ℕ → Bool)
    (f : ℕ → AttemptOutcome) (retries attempt : ℕ) (hlt : attempt < retries)
    (hfail : isRetryableFailure isRetry (f attempt) = true) :
    fetchWithRetryGo isRetry f retries attempt =
      { attempts := (fetchWithRetryGo isRetry f retries (attempt + 1)).attempts + 1
        delays := INITIAL_RETRY_DELAY * 2 ^ attempt ::
          (fetchWithRetryGo isRetry f retries (attempt + 1)).delays
        result := (fetchWithRetryGo isRetry f retries (attempt + 1)).result } := by
  cases hf : f attempt with
  | ok => rw [hf] at hfail; simp [isRetryableFailure] at hfail
  | httpFail s =>
      rw [hf] at hfail
      simp only [isRetryableFailure] at hfail
      rw [fetchWithRetryGo, hf]
      simp only [hfail, Bool.true_eq_false, if_false, hlt, dif_pos]
  | netFail =>
      rw [fetchWithRetryGo, hf]
      simp only [hlt, dif_pos]

/-- Unfolding: a retryable failure on the last attempt ends the loop with
the final `retryable = true` error. -/
theorem fetchWithRetryGo_eq_last (isRetry : Option ℕ → Bool)
    (f : ℕ → AttemptOutcome) (retries attempt : ℕ) (hnlt : ¬ attempt < retries)
    (hfail : isRetryableFailure isRetry (f attempt) = true) :
    fetchWithRetryGo isRetry f retries attempt =
      { attempts := 1, delays := [], result := .err none true } := by
  cases hf : f attempt with
  | ok => rw [hf] at hfail; simp [isRetryableFailure] at hfail
  | httpFail s =>
      rw [hf] at hfail
      simp only [isRetryableFailure] at hfail
      rw [fetchWithRetryGo, hf]
      simp only [hfail, Bool.true_eq_false, if_false, hnlt, dif_neg]
      simp
  | netFail =>
      rw [fetchWithRetryGo, hf]
      simp only [hnlt, dif_neg]
      simp

/-- The retry loop always makes at least one and at most
`retries - attempt + 1` fetch attempts. -/
theorem fetchWithRetryGo_attempts_bounds (isRetry : Option ℕ → Bool)
    (f : ℕ → AttemptOutcome) (retries : ℕ) : ∀ k attempt : ℕ, retries - attempt ≤ k →
    1 ≤ (fetchWithRetryGo isRetry f retries attempt).attempts ∧
      (fetchWithRetryGo isRetry f retries attempt).attempts ≤ retries - attempt + 1 := by
  intro k
  induction k with
  | zero =>
      intro attempt h
      have hnlt : ¬ attempt < retries := by omega
      cases hfail : isRetryableFailure isRetry (f attempt) with
      | true =>
          rw [fetchWithRetryGo_eq_last isRetry f retries attempt hnlt hfail]
          exact ⟨Nat.le_refl 1, Nat.succ_le_succ (Nat.zero_le _)⟩
      | false =>
          cases hf : f attempt with
          | ok =>
              rw [fetchWithRetryGo_eq_ok isRetry f retries attempt hf]
              exact ⟨Nat.le_refl 1, Nat.succ_le_succ (Nat.zero_le _)⟩
          | httpFail s =>
              rw [hf] at hfail
              simp only [isRetryableFailure] at hfail
              rw [fetchWithRetryGo_eq_terminal isRetry f retries attempt s hf hfail]
              exact ⟨Nat.le_refl 1, Nat.succ_le_succ (Nat.zero_le _)⟩
          | netFail =>
              rw [hf] at hfail
              simp [isRetryableFailure] at hfail
  | succ n ih =>
      intro attempt h
      by_cases hlt : attempt < retries
      · have hrec := (ih (attempt + 1) (by omega)).2
        cases hfail : isRetryableFailure isRetry (f attempt) with
        | true =>
            rw [fetchWithRetryGo_eq_retry isRetry f retries attempt hlt hfail]
            refine ⟨Nat.succ_le_succ (Nat.zero_le _), ?_⟩
            show (fetchWithRetryGo isRetry f retries (attempt + 1)).attempts + 1 ≤
              retries - attempt + 1
            omega
        | false =>
            cases hf : f attempt with
            | ok =>
                rw [fetchWithRetryGo_eq_ok isRetry f retries attempt hf]
                exact ⟨Nat.le_refl 1, Nat.succ_le_succ (Nat.zero_le _)⟩
            | httpFail s =>
                rw [hf] at hfail
                simp only [isRetryableFailure] at hfail
                rw [fetchWithRetryGo_eq_terminal isRetry f retries attempt s hf hfail]
                exact ⟨Nat.le_refl 1, Nat.succ_le_succ (Nat.zero_le _)⟩
            | netFail =>
                rw [hf] at hfail
                simp [isRetryableFailure] at hfail
      · cases hfail : isRetryableFailure isRetry (f attempt) with
        | true =>
            rw [fetchWithRetryGo_eq_last isRetry f retries attempt hlt hfail]
            exact ⟨Nat.le_refl 1, Nat.succ_le_succ (Nat.zero_le _)⟩
        | false =>
            cases hf : f attempt with
            | ok =>
                rw [fetchWithRetryGo_eq_ok isRetry f retries attempt hf]
                exact ⟨Nat.le_refl 1, Nat.succ_le_succ (Nat.zero_le _)⟩
            | httpFail s =>
                rw [hf] at hfail
                simp only [isRetryableFailure] at hfail
                rw [fetchWithRetryGo_eq_terminal isRetry f retries attempt s hf hfail]
                exact ⟨Nat.le_refl 1, Nat.succ_le_succ (Nat.zero_le _)⟩
            | netFail =>
                rw [hf] at hfail
                simp [isRetryableFailure] at hfail

/-- C5 (amended): in the Alpha Vantage client one successful
`checkRateLimit` acquire precedes the FIRST outbound request of a logical
fetch, and that single acquire covers every retry attempt of the same
fetch: each trace contains at most one successful acquire yet up to
`MAX_RETRIES + 1` requests, every request comes after a successful
acquire, and when the acquire fails no request is sent at all. -/
theorem avFetchStockQuoteTrace_spec (now : ℕ) (st : RateLimitState)
    (outcomes : ℕ → AttemptOutcome) :
    (∀ i : ℕ, (avFetchStockQuoteTrace now st outcomes)[i]? =
        some TraceEvent.request →
      ∃ j : ℕ, j < i ∧ (avFetchStockQuoteTrace now st outcomes)[j]? =
        some TraceEvent.acquireSuccess) ∧
    (avFetchStockQuoteTrace now st outcomes).count .acquireSuccess ≤ 1 ∧
    (avFetchStockQuoteTrace now st outcomes).count .request ≤ MAX_RETRIES + 1 ∧
    ((checkRateLimit now st).1 = false →
      (avFetchStockQuoteTrace now st outcomes).count .request = 0) := by
  have hb := fetchWithRetryGo_attempts_bounds alphaVantageIsRetryableError outcomes
    MAX_RETRIES MAX_RETRIES 0 (by omega)
  by_cases hacq : (checkRateLimit now st).1 = true
  · have htr : avFetchStockQuoteTrace now st outcomes =
        .acquireSuccess :: List.replicate
          (fetchWithRetry alphaVantageIsRetryableError outcomes).attempts .request := by
      simp [avFetchStockQuoteTrace, hacq]
    rw [htr]
    refine ⟨?_, ?_, ?_, ?_⟩
    · intro i hreq
      rcases i with _ | i
      · simp at hreq
      · exact ⟨0, Nat.succ_pos i, by simp⟩
    · simp [List.count_cons, List.count_replicate]
    · have h2 := hb.2
      simp only [fetchWithRetry, MAX_RETRIES] at h2 ⊢
      rw [List.count_cons]
      simp [List.count_replicate_self]
      omega
    · intro hfalse
      rw [hacq] at hfalse
      exact absurd hfalse (by simp)
  · have hfalse : (checkRateLimit now st).1 = false := by
      simpa using hacq
    have htr : avFetchStockQuoteTrace now st outcomes = [.acquireFail] := by
      simp [avFetchStockQuoteTrace, hfalse]
    rw [htr]
    refine ⟨?_, ?_, ?_, ?_⟩
    · intro i hreq
      rcases i with _ | i
      · simp at hreq
      · simp at hreq
    · decide
    · decide
    · intro _
      decide

/-- Witness for C5 (amended): with an exhausted daily budget the acquire
fails and zero requests are sent. -/
theorem avFetchStockQuoteTrace_spec_witness :
    (avFetchStockQuoteTrace 0
        { dailyCalls := 25, dailyResetTime := 999999999
          minuteCalls := 5, minuteResetTime := 999999999 }
        (fun _ => .ok)).count .request = 0 :=
  (avFetchStockQuoteTrace_spec 0
      { dailyCalls := 25, dailyResetTime := 999999999
        minuteCalls := 5, minuteResetTime := 999999999 }
      (fun _ => .ok)).2.2.2 rfl

/-- Counterexample for C5 as stated: after one retryable 500 and then a
success the trace holds two outbound requests but only ONE successful
acquire — the retry request was sent without its own preceding acquire,
so the per-request acquire claim fails. -/
theorem avFetchStockQuoteTrace_counterexample :
    (avFetchStockQuoteTrace 0
        { dailyCalls := 0, dailyResetTime := 0, minuteCalls := 0, minuteResetTime := 0 }
        (fun i => if i = 0 then .httpFail 500 else .ok)).count .request = 2 ∧
    (avFetchStockQuoteTrace 0
        { dailyCalls := 0, dailyResetTime := 0, minuteCalls := 0, minuteResetTime := 0 }
        (fun i => if i = 0 then .httpFail 500 else .ok)).count
      .acquireSuccess = 1 := by
  have hretry : fetchWithRetry alphaVantageIsRetryableError
      (fun i => if i = 0 then .httpFail 500 else .ok) =
      { attempts := 2, delays := [1000], result := .success } := by
    have h := fetchWithRetryGo_success alphaVantageIsRetryableError
      (fun i => if i = 0 then .httpFail 500 else .ok) MAX_RETRIES 1 0
      (by decide) (by decide) (by decide)
    simpa [fetchWithRetry] using h
  have hacq : (checkRateLimit 0
      { dailyCalls := 0, dailyResetTime := 0, minuteCalls := 0,
        minuteResetTime := 0 }).1 = true := rfl
  constructor <;>
    simp [avFetchStockQuoteTrace, hacq, hretry, List.count_cons, List.count_replicate]

/-! ### JS Map lemmas -/

/-- Setting a key makes it retrievable. -/
theorem mapGet_mapSet_self {β : Type} (m : List (String × β)) (k : String) (v : β) :
    mapGet (mapSet m k v) k = some v := by
  induction m with
  | nil => simp [mapSet, mapGet]
  | cons p rest ih =>
      by_cases h : p.1 = k
      · simp [mapSet, h, mapGet]
      · simp only [mapSet, h, if_false]
        simpa [mapGet, List.find?_cons, h] using ih

/-- Setting one key leaves every other key's value unchanged. -/
theorem mapGet_mapSet_ne {β : Type} (m : List (String × β)) (k j : String) (v : β)
    (h : j ≠ k) : mapGet (mapSet m k v) j = mapGet m j := by
  induction m with
  | nil => simp [mapSet, mapGet, Ne.symm h]
  | cons p rest ih =>
      by_cases hpk : p.1 = k
      · subst hpk
        simp [mapSet, mapGet, List.find?_cons, Ne.symm h]
      · simp only [mapSet, hpk, if_false]
        by_cases hpj : p.1 = j
        · simp [mapGet, List.find?_cons, hpj]
        · simpa [mapGet, List.find?_cons, hpj] using ih

/-- Key membership after a set. -/
theorem mem_mapKeys_mapSet {β : Type} (m : List (String × β)) (k j : String) (v : β) :
    j ∈ mapKeys (mapSet m k v) ↔ j = k ∨ j ∈ mapKeys m := by
  induction m with
  | nil => simp [mapSet, mapKeys]
  | cons p rest ih =>
      by_cases hpk : p.1 = k
      · subst hpk
        simp [mapSet, mapKeys]
      · simp only [mapSet, hpk, if_false]
        simp only [mapKeys, List.map_cons, List.mem_cons] at ih ⊢
        constructor
        · rintro (h | h)
          · exact Or.inr (Or.inl h)
          · rcases ih.mp h with h | h
            · exact Or.inl h
            · exact Or.inr (Or.inr h)
        · rintro (h | h | h)
          · exact Or.inr (ih.mpr (Or.inl h))
          · exact Or.inl h
          · exact Or.inr (ih.mpr (Or.inr h))

/-- A set preserves key-list nodup. -/
theorem nodup_mapKeys_mapSet {β : Type} (m : List (String × β)) (k : String) (v : β)
    (h : (mapKeys m).Nodup) : (mapKeys (mapSet m k v)).Nodup := by
  induction m with
  | nil => simp [mapSet, mapKeys]
  | cons p rest ih =>
      simp only [mapKeys, List.map_cons, List.nodup_cons] at h
      by_cases hpk : p.1 = k
      · subst hpk
        simpa [mapSet, mapKeys, List.nodup_cons] using h
      · simp only [mapSet, hpk, if_false]
        simp only [mapKeys, List.map_cons, List.nodup_cons]
        refine ⟨?_, ih h.2⟩
        intro hmem
        rcases (mem_mapKeys_mapSet rest k p.1 v).mp hmem with heq | hmem'
        · exact hpk heq
        · exact h.1 hmem'

/-- Value finally stored by a fold of sets: the per-symbol value for every
folded symbol, the original value otherwise. -/
theorem foldl_mapSet_get {β : Type} (g : String → β) :
    ∀ (symbols : List String) (m : List (String × β)) (s : String),
    mapGet (symbols.foldl (fun acc sym => mapSet acc sym (g sym)) m) s =
      if s ∈ symbols then some (g s) else mapGet m s := by
  intro symbols
  induction symbols with
  | nil => intro m s; simp
  | cons s0 rest ih =>
      intro m s
      simp only [List.foldl_cons]
      rw [ih]
      by_cases hmem : s ∈ rest
      · simp [hmem, List.mem_cons]
      · by_cases hs0 : s = s0
        · subst hs0
          simp [hmem, mapGet_mapSet_self]
        · simp [hmem, hs0, mapGet_mapSet_ne m s0 s (g s0) hs0]

/-- Key membership after a fold of sets. -/
theorem foldl_mapSet_mem_keys {β : Type} (g : String → β) :
    ∀ (symbols : List String) (m : List (String × β)) (j : String),
    j ∈ mapKeys (symbols.foldl (fun acc sym => mapSet acc sym (g sym)) m) ↔
      j ∈ mapKeys m ∨ j ∈ symbols := by
  intro symbols
  induction symbols with
  | nil => intro m j; simp
  | cons s0 rest ih =>
      intro m j
      simp only [List.foldl_cons]
      rw [ih]
      rw [mem_mapKeys_mapSet]
      simp only [List.mem_cons]
      tauto

/-- A fold of sets preserves key-list nodup. -/
theorem foldl_mapSet_nodup {β : Type} (g : String → β) :
    ∀ (symbols : List String) (m : List (String × β)),
    (mapKeys m).Nodup →
    (mapKeys (symbols.foldl (fun acc sym => mapSet acc sym (g sym)) m)).Nodup := by
  intro symbols
  induction symbols with
  | nil => intro m h; simpa using h
  | cons s0 rest ih =>
      intro m h
      simp only [List.foldl_cons]
      exact ih _ (nodup_mapKeys_mapSet m s0 (g s0) h)

/-- Whether a per-symbol fetch outcome is a thrown `RateLimitError`. -/
def isRateLimitResult {α : Type} : Except AVError α → Bool
  | .error e => e.rateLimit
  | .ok _ => false

/-- When no symbol's fetch throws a `RateLimitError`, the Alpha Vantage
batch loop never breaks early and behaves like the plain fold of sets. -/
theorem avBatchGo_eq_foldl {α : Type} (fetch : String → Except AVError α) :
    ∀ (symbols : List String) (m : List (String × Except AVError α)),
    (∀ s ∈ symbols, isRateLimitResult (fetch s) = false) →
    avBatchGo fetch symbols m =
      symbols.foldl (fun acc sym => mapSet acc sym (fetch sym)) m := by
  intro symbols
  induction symbols with
  | nil => intro m _; rfl
  | cons s0 rest ih =>
      intro m h
      have h0 : isRateLimitResult (fetch s0) = false := h s0 (List.mem_cons_self s0 rest)
      simp only [List.foldl_cons]
      cases hf : fetch s0 with
      | ok q =>
          simp only [avBatchGo, hf]
          rw [ih _ (fun s hs => h s (List.mem_cons_of_mem s0 hs))]
      | error e =>
          rw [hf] at h0
          simp only [isRateLimitResult] at h0
          simp only [avBatchGo, hf, h0, Bool.false_eq_true, if_false]
          rw [ih _ (fun s hs => h s (List.mem_cons_of_mem s0 hs))]

/-- C2 (amended): for the Massive client the batch property holds
unconditionally — the result map's key set equals the input symbol set
(no key dropped, none duplicated) and every input symbol maps to exactly
its own fetch outcome (a quote or an error), independently of the other
symbols.  For the Alpha Vantage client the same holds PROVIDED no
symbol's fetch throws a `RateLimitError`; a rate-limit failure stops that
batch early and later symbols lose their entries. -/
theorem fetchBatchQuotes_per_symbol {ε α : Type} (fetchM : String → Except ε α)
    (fetchA : String → Except AVError α) (symbols : List String)
    (hA : ∀ s ∈ symbols, isRateLimitResult (fetchA s) = false) :
    ((mapKeys (massiveFetchBatchQuotes fetchM symbols)).Nodup ∧
     (∀ s, s ∈ mapKeys (massiveFetchBatchQuotes fetchM symbols) ↔ s ∈ symbols) ∧
     (∀ s ∈ symbols,
        mapGet (massiveFetchBatchQuotes fetchM symbols) s = some (fetchM s))) ∧
    ((mapKeys (avFetchBatchQuotes fetchA symbols)).Nodup ∧
     (∀ s, s ∈ mapKeys (avFetchBatchQuotes fetchA symbols) ↔ s ∈ symbols) ∧
     (∀ s ∈ symbols,
        mapGet (avFetchBatchQuotes fetchA symbols) s = some (fetchA s))) := by
  have hAV : avFetchBatchQuotes fetchA symbols =
      symbols.foldl (fun acc sym => mapSet acc sym (fetchA sym)) [] :=
    avBatchGo_eq_foldl fetchA symbols [] hA
  refine ⟨⟨?_, ?_, ?_⟩, ⟨?_, ?_, ?_⟩⟩
  · exact foldl_mapSet_nodup fetchM symbols [] (by simp [mapKeys])
  · intro s
    rw [massiveFetchBatchQuotes, foldl_mapSet_mem_keys]
    simp [mapKeys]
  · intro s hs
    rw [massiveFetchBatchQuotes, foldl_mapSet_get]
    simp [hs]
  · rw [hAV]
    exact foldl_mapSet_nodup fetchA symbols [] (by simp [mapKeys])
  · intro s
    rw [hAV, foldl_mapSet_mem_keys]
    simp [mapKeys]
  · intro s hs
    rw [hAV, foldl_mapSet_get]
    simp [hs]

/-- Witness for C2 (amended): a two-symbol batch where the second
symbol's fetch fails with a non-rate-limit error still has both keys, the
first mapping to its quote and the second to its error. -/
theorem fetchBatchQuotes_per_symbol_witness :
    mapGet (massiveFetchBatchQuotes
        (fun s => if s = "AAPL" then (Except.ok (5 : ℚ) : Except Unit ℚ)
                  else .error ()) ["AAPL", "MSFT"]) "MSFT" = some (.error ()) ∧
    mapGet (avFetchBatchQuotes
        (fun s => if s = "AAPL" then (Except.ok (5 : ℚ) : Except AVError ℚ)
                  else .error { rateLimit := false }) ["AAPL", "MSFT"]) "MSFT" =
      some (.error { rateLimit := false }) := by
  have h := fetchBatchQuotes_per_symbol
    (fun s => if s = "AAPL" then (Except.ok (5 : ℚ) : Except Unit ℚ) else .error ())
    (fun s => if s = "AAPL" then (Except.ok (5 : ℚ) : Except AVError ℚ)
              else .error { rateLimit := false })
    ["AAPL", "MSFT"] (by intro s hs; fin_cases hs <;> rfl)
  constructor
  · have := h.1.2.2 "MSFT" (by simp)
    simpa using this
  · have := h.2.2.2 "MSFT" (by simp)
    simpa using this

/-- Counterexample for C2 as stated: when the first symbol of an Alpha
Vantage batch throws a `RateLimitError`, the loop breaks and the second
input symbol has NO entry in the result map — the key set does not equal
the input symbol set. -/
theorem avFetchBatchQuotes_counterexample :
    ("B" ∈ ["A", "B"]) ∧
    mapGet (avFetchBatchQuotes
        (fun _ => (Except.error { rateLimit := true } : Except AVError ℚ))
        ["A", "B"]) "B" = none ∧
    mapKeys (avFetchBatchQuotes
        (fun _ => (Except.error { rateLimit := true } : Except AVError ℚ))
        ["A", "B"]) = ["A"] := by
  refine ⟨by simp, rfl, rfl⟩

namespace PriceJob

/-- One persistence update keeps every row whose id does not match. -/
theorem applyUpdate_getElem?_ne (now : ℚ) (store : List Asset)
    (r : PriceUpdateResult) (i : ℕ) (a : Asset) (hi : store[i]? = some a)
    (h : r.asset_id ≠ a.id) : (applyUpdate now store r)[i]? = some a := by
  have hkeep : (if a.id = r.asset_id then
      { a with current_price := some r.new_price, last_price_update := some now }
    else a) = a := if_neg (fun heq => h heq.symm)
  simp [applyUpdate, List.getElem?_map, hi, hkeep]

/-- One persistence update rewrites the row whose id matches. -/
theorem applyUpdate_getElem?_eq (now : ℚ) (store : List Asset)
    (r : PriceUpdateResult) (i : ℕ) (a : Asset) (hi : store[i]? = some a)
    (h : r.asset_id = a.id) : (applyUpdate now store r)[i]? =
      some { a with current_price := some r.new_price
                    last_price_update := some now } := by
  simp only [applyUpdate, List.getElem?_map, hi]
  simp [h.symm]

/-- Rows untouched by every update in a batch survive the whole fold. -/
theorem foldl_applyUpdate_untouched (now : ℚ) :
    ∀ (updates : List PriceUpdateResult) (store : List Asset) (i : ℕ) (a : Asset),
    store[i]? = some a → (∀ r ∈ updates, r.asset_id ≠ a.id) →
    (updates.foldl (applyUpdate now) store)[i]? = some a := by
  intro updates
  induction updates with
  | nil => intro store i a hi _; simpa using hi
  | cons r rest ih =>
      intro store i a hi h
      simp only [List.foldl_cons]
      exact ih _ i a
        (applyUpdate_getElem?_ne now store r i a hi (h r (List.mem_cons_self r rest)))
        (fun r' hr' => h r' (List.mem_cons_of_mem r hr'))

/-- With pairwise-distinct asset ids, the row matching one update in the
batch ends up rewritten with exactly that update's price. -/
theorem foldl_applyUpdate_updated (now : ℚ) :
    ∀ (updates : List PriceUpdateResult) (store : List Asset) (i : ℕ) (a : Asset)
      (r : PriceUpdateResult),
    store[i]? = some a → r ∈ updates → r.asset_id = a.id →
    (updates.map (fun x => x.asset_id)).Nodup →
    (updates.foldl (applyUpdate now) store)[i]? =
      some { a with current_price := some r.new_price
                    last_price_update := some now } := by
  intro updates
  induction updates with
  | nil => intro store i a r _ hr; simp at hr
  | cons r0 rest ih =>
      intro store i a r hi hr hid hnd
      simp only [List.map_cons, List.nodup_cons] at hnd
      simp only [List.foldl_cons]
      rcases List.mem_cons.mp hr with rfl | hrrest
      · have hstep := applyUpdate_getElem?_eq now store r i a hi hid
        refine foldl_applyUpdate_untouched now rest _ i _ hstep ?_
        intro r' hr' hcontra
        apply hnd.1
        have hrr : r'.asset_id = a.id := hcontra
        rw [← hid] at hrr
        exact List.mem_map.mpr ⟨r', hr', hrr⟩
      · have h0 : r0.asset_id ≠ a.id := by
          intro hcontra
          exact hnd.1 (List.mem_map.mpr ⟨r, hrrest, by rw [hid, ← hcontra]⟩)
        exact ih _ i a r (applyUpdate_getElem?_ne now store r0 i a hi h0)
          hrrest hid hnd.2

/-- C8: the persistence pass of a user's price-update run writes
`current_price`/`last_price_update` for exactly the assets whose result is
successful, appends one price-history row per successful result, and
leaves every other row — in particular every failed asset — byte-for-byte
untouched, preserving its stale price. -/
theorem savePriceUpdates_frame (store : List Asset)
    (results : List PriceUpdateResult) (now : ℚ)
    (hnd : (results.map (fun r => r.asset_id)).Nodup)
    (i : ℕ) (a : Asset) (hi : store[i]? = some a) :
    ((∀ r ∈ results, r.success = true → r.asset_id ≠ a.id) →
      (savePriceUpdates store results now).1[i]? = some a) ∧
    (∀ r ∈ results, r.success = true → r.asset_id = a.id →
      (savePriceUpdates store results now).1[i]? =
        some { a with current_price := some r.new_price
                      last_price_update := some now }) ∧
    (∀ hrec, hrec ∈ (savePriceUpdates store results now).2 ↔
      ∃ r, r ∈ results ∧ r.success = true ∧
        hrec = { asset_id := r.asset_id, symbol := r.symbol, price := r.new_price
                 timestamp := now, source := r.source }) := by
  refine ⟨?_, ?_, ?_⟩
  · intro h
    refine foldl_applyUpdate_untouched now _ store i a hi ?_
    intro r hr
    rcases List.mem_filter.mp hr with ⟨hrmem, hrs⟩
    exact h r hrmem (by simpa using hrs)
  · intro r hrmem hrs hrid
    refine foldl_applyUpdate_updated now _ store i a r hi ?_ hrid ?_
    · exact List.mem_filter.mpr ⟨hrmem, by simpa using hrs⟩
    · exact List.Nodup.sublist
        (List.Sublist.map _ (List.filter_sublist results)) hnd
  · intro hrec
    simp only [savePriceUpdates, List.mem_map, List.mem_filter]
    constructor
    · rintro ⟨r, ⟨hrmem, hrs⟩, rfl⟩
      exact ⟨r, hrmem, by simpa using hrs, rfl⟩
    · rintro ⟨r, hrmem, hrs, rfl⟩
      exact ⟨r, ⟨hrmem, by simpa using hrs⟩, rfl⟩

/-- Witness for C8: two assets, one successful and one failed result —
the successful one is rewritten with the new price and timestamp, the
failed one keeps its stale row. -/
theorem savePriceUpdates_frame_witness :
    (savePriceUpdates
        [{ id := 1, user_id := 1, asset_type := "stock", symbol := some "AAPL"
           current_price := some 3, last_price_update := some 0 },
         { id := 2, user_id := 1, asset_type := "stock", symbol := some "MSFT"
           current_price := some 4, last_price_update := some 0 }]
        [{ asset_id := 1, symbol := "AAPL", old_price := some 3, new_price := 7
           source := "massive", success := true },
         { asset_id := 2, symbol := "MSFT", old_price := some 4, new_price := 0
           source := "massive", success := false }] 99).1[0]? =
      some { id := 1, user_id := 1, asset_type := "stock", symbol := some "AAPL"
             current_price := some 7, last_price_update := some 99 } ∧
    (savePriceUpdates
        [{ id := 1, user_id := 1, asset_type := "stock", symbol := some "AAPL"
           current_price := some 3, last_price_update := some 0 },
         { id := 2, user_id := 1, asset_type := "stock", symbol := some "MSFT"
           current_price := some 4, last_price_update := some 0 }]
        [{ asset_id := 1, symbol := "AAPL", old_price := some 3, new_price := 7
           source := "massive", success := true },
         { asset_id := 2, symbol := "MSFT", old_price := some 4, new_price := 0
           source := "massive", success := false }] 99).1[1]? =
      some { id := 2, user_id := 1, asset_type := "stock", symbol := some "MSFT"
             current_price := some 4, last_price_update := some 0 } := by
  have h0 := savePriceUpdates_frame
    [{ id := 1, user_id := 1, asset_type := "stock", symbol := some "AAPL"
       current_price := some 3, last_price_update := some 0 },
     { id := 2, user_id := 1, asset_type := "stock", symbol := some "MSFT"
       current_price := some 4, last_price_update := some 0 }]
    [{ asset_id := 1, symbol := "AAPL", old_price := some 3, new_price := 7
       source := "massive", success := true },
     { asset_id := 2, symbol := "MSFT", old_price := some 4, new_price := 0
       source := "massive", success := false }] 99 (by decide) 0
    { id := 1, user_id := 1, asset_type := "stock", symbol := some "AAPL"
      current_price := some 3, last_price_update := some 0 } rfl
  have h1 := savePriceUpdates_frame
    [{ id := 1, user_id := 1, asset_type := "stock", symbol := some "AAPL"
       current_price := some 3, last_price_update := some 0 },
     { id := 2, user_id := 1, asset_type := "stock", symbol := some "MSFT"
       current_price := some 4, last_price_update := some 0 }]
    [{ asset_id := 1, symbol := "AAPL", old_price := some 3, new_price := 7
       source := "massive", success := true },
     { asset_id := 2, symbol := "MSFT", old_price := some 4, new_price := 0
       source := "massive", success := false }] 99 (by decide) 1
    { id := 2, user_id := 1, asset_type := "stock", symbol := some "MSFT"
      current_price := some 4, last_price_update := some 0 } rfl
  refine ⟨?_, ?_⟩
  · have hupd := h0.2.1
      { asset_id := 1, symbol := "AAPL", old_price := some 3, new_price := 7
        source := "massive", success := true }
      (List.mem_cons_self _ _) rfl rfl
    simpa using hupd
  · exact h1.1 (by decide)

/-- C9 (amended): the update-eligibility gate computes
`minutesSinceLastUpdate` from the FIRST listed asset the store returns for
the user (the source query has `limit(1)` with no ordering — an arbitrary
listed asset, not necessarily the most recently updated one), selecting
the user iff those minutes reach the tier's frequency; users with zero
listed assets are never selected. -/
theorem getUsersNeedingUpdates_spec_amended (subs : List Subscription)
    (assets : List Asset) (now : ℚ) (u : ℕ) :
    (u ∈ getUsersNeedingUpdates subs assets now ↔
      ∃ sub ∈ subs, sub.user_id = u ∧
        ∃ a, (assets.filter
            (fun x => decide (x.user_id = sub.user_id) &&
              decide (x.symbol ≠ none))).head? = some a ∧
          (now - a.last_price_update.getD 0) / (1000 * 60) ≥
            sub.price_update_frequency_minutes) ∧
    ((assets.filter (fun x => decide (x.user_id = u) && decide (x.symbol ≠ none)))
        = [] → u ∉ getUsersNeedingUpdates subs assets now) := by
  have hiff : u ∈ getUsersNeedingUpdates subs assets now ↔
      ∃ sub ∈ subs, sub.user_id = u ∧
        ∃ a, (assets.filter
            (fun x => decide (x.user_id = sub.user_id) &&
              decide (x.symbol ≠ none))).head? = some a ∧
          (now - a.last_price_update.getD 0) / (1000 * 60) ≥
            sub.price_update_frequency_minutes := by
    constructor
    · intro hu
      simp only [getUsersNeedingUpdates, List.mem_filterMap] at hu
      obtain ⟨sub, hsub, hf⟩ := hu
      split at hf
      · exact absurd hf (by simp)
      · rename_i a hh
        split_ifs at hf with hcond
        exact ⟨sub, hsub, by simpa using hf, a, hh, hcond⟩
    · rintro ⟨sub, hsub, huid, a, hh, hcond⟩
      simp only [getUsersNeedingUpdates, List.mem_filterMap]
      refine ⟨sub, hsub, ?_⟩
      rw [hh]
      show (if (now - a.last_price_update.getD 0) / (1000 * 60) ≥
          sub.price_update_frequency_minutes then some sub.user_id else none) = some u
      rw [if_pos hcond, huid]
  refine ⟨hiff, ?_⟩
  intro hempty hu
  rcases hiff.mp hu with ⟨sub, hsub, huid, a, hh, _⟩
  rw [huid, hempty] at hh
  exact absurd hh (by simp)

/-- Witness for C9 (amended): a user with no listed assets is never
selected. -/
theorem getUsersNeedingUpdates_spec_amended_witness :
    1 ∉ getUsersNeedingUpdates
      [{ user_id := 1, is_premium := true, price_update_frequency_minutes := 5 }]
      [] 0 :=
  (getUsersNeedingUpdates_spec_amended
    [{ user_id := 1, is_premium := true, price_update_frequency_minutes := 5 }]
    [] 0 1).2 rfl

/-- The subscription row of the C9 counterexample: a premium user with
the 5-minute cadence. -/
def c9sub : Subscription :=
  { user_id := 1, is_premium := true, price_update_frequency_minutes := 5 }

/-- First listed asset of the C9 counterexample: stale for 10 minutes. -/
def c9assetStale : Asset :=
  { id := 1, user_id := 1, asset_type := "stock", symbol := some "AAA"
    current_price := none, last_price_update := some 0 }

/-- Second listed asset of the C9 counterexample: updated this instant. -/
def c9assetFresh : Asset :=
  { id := 2, user_id := 1, asset_type := "stock", symbol := some "BBB"
    current_price := none, last_price_update := some 600000 }

/-- Counterexample for C9 as stated: at `now = 600000` ms the first asset
is 10 minutes stale and the second was updated this instant.  The claim
("compute `minutesSinceLastUpdate` from the most recently updated listed
asset") would skip the user, but the code reads the FIRST listed row the
store returns — the query has no ordering — and selects the user. -/
theorem getUsersNeedingUpdates_counterexample :
    1 ∈ getUsersNeedingUpdates [c9sub] [c9assetStale, c9assetFresh] 600000 ∧
    1 ∉ getUsersNeedingUpdatesSpec [c9sub] [c9assetStale, c9assetFresh] 600000 := by
  have hfil : ([c9assetStale, c9assetFresh]).filter
      (fun x => decide (x.user_id = c9sub.user_id) && decide (x.symbol ≠ none)) =
      [c9assetStale, c9assetFresh] := by
    simp [List.filter, c9sub, c9assetStale, c9assetFresh]
  constructor
  · simp only [getUsersNeedingUpdates, List.mem_filterMap]
    refine ⟨c9sub, by simp, ?_⟩
    rw [hfil]
    show (if ((600000 : ℚ) - (c9assetStale.last_price_update.getD 0)) / (1000 * 60) ≥
        c9sub.price_update_frequency_minutes then some c9sub.user_id else none) =
      some 1
    rw [if_pos (by norm_num [c9assetStale, c9sub])]
    rfl
  · simp only [getUsersNeedingUpdatesSpec, List.mem_filterMap]
    rintro ⟨sub, hsub, hf⟩
    obtain rfl : sub = c9sub := by simpa using hsub
    rw [hfil] at hf
    have hmax : (([c9assetStale, c9assetFresh]).map
        (fun a => a.last_price_update.getD 0)).max? = some 600000 := by
      show ([(0 : ℚ), 600000]).max? = some 600000
      rw [List.max?]
      norm_num [List.foldl]
    rw [hmax] at hf
    have hf2 : (if ((600000 : ℚ) - 600000) / (1000 * 60) ≥
        c9sub.price_update_frequency_minutes then some c9sub.user_id else none) =
        some 1 := hf
    rw [if_neg (by norm_num [c9sub])] at hf2
    exact absurd hf2 (by simp)

/-- A record built from a batch entry carries the asset's own id. -/
theorem stockResultRecord_asset_id (source : String) (m : StockMap) (a : Asset)
    (r : PriceUpdateResult) (h : stockResultRecord source m a = some r) :
    r.asset_id = a.id := by
  unfold stockResultRecord at h
  split at h
  · cases h
    rfl
  · cases h
    rfl
  · exact absurd h (by simp)

/-- Every result record is counted in exactly one of the two run-summary
buckets. -/
theorem assetsUpdated_add_assetsFailed (res : List PriceUpdateResult) :
    assetsUpdated res + assetsFailed res = res.length := by
  induction res with
  | nil => rfl
  | cons r rest ih =>
      cases hrs : r.success <;>
        simp [assetsUpdated, assetsFailed, List.filter_cons, hrs] at ih ⊢ <;>
        omega

/-- C10: an asset whose symbol has no entry at all in the batch result
map used for the update (neither a quote nor an error) yields no per-asset
result record, and since `assets_updated` and `assets_failed` just count
the success and failure records, such an asset is counted in neither
bucket of the run summary. -/
theorem updateStockPrices_missing_symbol (assets : List Asset) (m : StockMap)
    (avOutcome : Except Unit StockMap) (a : Asset) (s : String)
    (hnd : (assets.map (fun x => x.id)).Nodup)
    (ha : a ∈ assets) (hs : a.symbol = some s) (hm : mapGet m s = none) :
    (∀ r ∈ updateStockPrices assets (.ok m) avOutcome, r.asset_id ≠ a.id) ∧
    assetsUpdated (updateStockPrices assets (.ok m) avOutcome) +
        assetsFailed (updateStockPrices assets (.ok m) avOutcome) =
      (updateStockPrices assets (.ok m) avOutcome).length := by
  refine ⟨?_, assetsUpdated_add_assetsFailed _⟩
  intro r hr
  simp only [updateStockPrices] at hr
  split at hr
  · exact absurd hr (by simp)
  · rcases List.mem_filterMap.mp hr with ⟨a', ha', hrec⟩
    intro hcontra
    have hid : a'.id = a.id := by
      rw [← stockResultRecord_asset_id "massive" m a' r hrec, hcontra]
    obtain rfl : a' = a := List.inj_on_of_nodup_map hnd ha' ha hid
    unfold stockResultRecord at hrec
    rw [hs] at hrec
    simp only [Option.some_bind] at hrec
    rw [hm] at hrec
    exact absurd hrec (by simp)

/-- Witness for C10: with two stock assets and a Massive batch map that
only has the first symbol, the run summary still counts exactly the
produced records. -/
theorem updateStockPrices_missing_symbol_witness :
    assetsUpdated (updateStockPrices
        [{ id := 1, user_id := 1, asset_type := "stock", symbol := some "AAPL"
           current_price := none, last_price_update := none },
         { id := 2, user_id := 1, asset_type := "stock", symbol := some "MSFT"
           current_price := none, last_price_update := none }]
        (.ok [("AAPL", .quote 5)]) (.error ())) +
      assetsFailed (updateStockPrices
        [{ id := 1, user_id := 1, asset_type := "stock", symbol := some "AAPL"
           current_price := none, last_price_update := none },
         { id := 2, user_id := 1, asset_type := "stock", symbol := some "MSFT"
           current_price := none, last_price_update := none }]
        (.ok [("AAPL", .quote 5)]) (.error ())) =
    (updateStockPrices
        [{ id := 1, user_id := 1, asset_type := "stock", symbol := some "AAPL"
           current_price := none, last_price_update := none },
         { id := 2, user_id := 1, asset_type := "stock", symbol := some "MSFT"
           current_price := none, last_price_update := none }]
        (.ok [("AAPL", .quote 5)]) (.error ())).length :=
  (updateStockPrices_missing_symbol
    [{ id := 1, user_id := 1, asset_type := "stock", symbol := some "AAPL"
       current_price := none, last_price_update := none },
     { id := 2, user_id := 1, asset_type := "stock", symbol := some "MSFT"
       current_price := none, last_price_update := none }]
    [("AAPL", .quote 5)] (.error ())
    { id := 2, user_id := 1, asset_type := "stock", symbol := some "MSFT"
      current_price := none, last_price_update := none } "MSFT"
    (by decide) (by simp) rfl rfl).2

end PriceJob

end Vestpod
